import Mathlib

/-!
Verification of the PDF generate/split/extract pipeline
(`generate_large_pdf.py` and `split_pdf.py`).

The file system is modelled as a map from path strings to file data plus a
set of existing directories.  A PDF file is abstracted as its list of pages,
a page by its extractable plain text (the byte-level serialization of the
PDF writer is deterministic in the page, so byte identity of written
single-page files coincides with identity of the abstract page value).
Python string operations used by the scripts (`lower`, `endswith`,
`replace`, decimal formatting with a 03d pad) are embedded as executable
functions on `String`/`List Char`.
-/

/-- Python `str.lower()` for the ASCII text used by the generator. -/
def py_lower (s : String) : String :=
  ⟨s.data.map Char.toLower⟩

/-- Python `s.endswith(suffix)`: the last `suffix.length` characters of `s`
equal `suffix` (false when `s` is shorter than `suffix`, since then the
dropped list keeps the full, longer, `s`). -/
def str_endswith (s suf : String) : Bool :=
  s.data.drop (s.data.length - suf.data.length) == suf.data

/-- Bool test that `pat` is an initial segment of `l`. -/
def listStartsWith : List Char → List Char → Bool
  | [], _ => true
  | _ :: _, [] => false
  | p :: ps, c :: cs => p == c && listStartsWith ps cs

/-- Fuel-driven core of Python `str.replace`: scan left to right, replacing
each non-overlapping occurrence of `pat` by `rep`.  With `fuel` at least the
length of the scanned list and a non-empty `pat` (the only way the scripts
call it), the fuel never runs out, since every step consumes at least one
character. -/
def replace_fuel (pat rep : List Char) : Nat → List Char → List Char
  | _, [] => []
  | 0, s => s
  | fuel + 1, c :: rest =>
    if listStartsWith pat (c :: rest) then
      rep ++ replace_fuel pat rep fuel ((c :: rest).drop pat.length)
    else
      c :: replace_fuel pat rep fuel rest

/-- Python `s.replace(pat, rep)`: replaces every occurrence of `pat`,
not only a trailing extension. -/
def py_replace (s pat rep : String) : String :=
  ⟨replace_fuel pat.data rep.data s.data.length s.data⟩

/-- Python format `03d`: decimal digits of `n`, zero-padded on the left to
at least three characters (numbers of four or more digits print fully). -/
def format03d (n : Nat) : String :=
  if n < 1000 then
    ⟨[Nat.digitChar (n / 100), Nat.digitChar (n / 10 % 10), Nat.digitChar (n % 10)]⟩
  else
    toString n

/-- The nine fixed boilerplate clauses appended after a base sentence by
`create_detailed_paragraphs` (`generate_large_pdf.py`, lines 91-100).  Two of
the clauses embed the lowercased base sentence. -/
def detail_suffix (base_content : String) : String :=
  "This concept is fundamental to understanding modern AI systems and represents a significant breakthrough in computational approaches to machine learning. "
  ++ "Research from leading institutions including MIT, Stanford, Carnegie Mellon, UC Berkeley, and Google Research has shown that " ++ py_lower base_content ++ " "
  ++ "Implementation details vary significantly across different frameworks including TensorFlow 2.x, PyTorch 2.0, JAX with Flax, Hugging Face Transformers, and specialized libraries like FairSeq and AllenNLP. "
  ++ "Performance benchmarks conducted on diverse hardware configurations including NVIDIA A100, H100, V100 GPUs, TPU v4 pods, and AWS Trainium instances indicate substantial improvements when " ++ py_lower base_content ++ " "
  ++ "Industry applications span numerous domains including healthcare diagnostics, financial risk assessment, autonomous vehicle perception, robotics control systems, natural language understanding, computer vision, and drug discovery. "
  ++ "Future research directions encompass optimization strategies, model interpretability techniques, robustness enhancement methods, privacy-preserving approaches, federated learning architectures, and sustainable AI development practices. "
  ++ "Mathematical formulations underlying these concepts involve complex optimization problems, gradient-based learning algorithms, statistical learning theory, information theory principles, and computational complexity analysis. "
  ++ "Experimental validation requires comprehensive datasets, rigorous evaluation protocols, statistical significance testing, ablation studies, and reproducibility verification across multiple research groups and computational environments. "
  ++ "The implications for practical deployment include considerations for model serving infrastructure, real-time inference requirements, batch processing capabilities, monitoring and observability systems, A/B testing frameworks, and continuous learning pipelines. "

/-- One expanded paragraph built inside the repetition loop of
`create_detailed_paragraphs`: the base sentence, a space, then the nine
fixed clauses.  The loop body does not depend on the loop index. -/
def create_detailed (base_content : String) : String :=
  base_content ++ " " ++ detail_suffix base_content

/-- `create_detailed_paragraphs(content_list, repetitions=300)`
(`generate_large_pdf.py`, lines 84-104): for each base sentence, append
`repetitions` copies of the expanded paragraph. -/
def create_detailed_paragraphs (content_list : List String)
    (repetitions : Nat := 300) : List String :=
  content_list.flatMap (fun base_content =>
    (List.range repetitions).map (fun _ => create_detailed base_content))

/-- The expanded paragraphs appended to the document by `generate_pdf`
(`generate_large_pdf.py`, lines 221-233): for each repeat cycle, for each
section, the expansion of that section with the per-section repetition
count.  The source fixes 20 cycles and passes `repetitions=200`; those
literals are the default arguments here, and the section table is a
parameter so that counts can be stated for any configuration. -/
def generate_pdf_paragraphs (sections : List (String × List String))
    (cycles : Nat := 20) (reps : Nat := 200) : List String :=
  (List.range cycles).flatMap (fun _ =>
    sections.flatMap (fun sec => create_detailed_paragraphs sec.2 reps))

/-- A PDF page, abstracted by its extractable plain text. -/
structure Page where
  text : String
deriving DecidableEq

instance : Inhabited Page := ⟨⟨""⟩⟩

/-- Contents of a file on disk: a PDF (its list of pages, standing for the
deterministic bytes the PDF writer produces for them) or a text file. -/
inductive FileData
  | pdf (pages : List Page)
  | txt (content : String)
deriving DecidableEq

/-- File-system state: the set of existing directories and a map from path
to file contents. -/
structure FS where
  dirs : List String
  file : String → Option FileData

/-- Overwrite (or create) the file at path `p`. -/
def FS.write (fs : FS) (p : String) (d : FileData) : FS :=
  { fs with file := fun q => if q = p then some d else fs.file q }

/-- `os.makedirs` guarded by `os.path.exists`. -/
def FS.mkdirIfAbsent (fs : FS) (d : String) : FS :=
  { fs with dirs := if d ∈ fs.dirs then fs.dirs else d :: fs.dirs }

/-- Apply a list of writes in order; a later write to the same path wins. -/
def applyWrites (ws : List (String × FileData)) (fs : FS) : FS :=
  ws.foldl (fun acc w => acc.write w.1 w.2) fs

/-- The write, if any, that a list of writes leaves at path `p`
(the last one in list order). -/
def last_write : List (String × FileData) → String → Option FileData
  | [], _ => none
  | w :: ws, p => (last_write ws p).or (if w.1 = p then some w.2 else none)

/-- Output filename for 0-based page index `page_num`
(`split_pdf.py`, line 39): 1-based, zero-padded to three digits. -/
def page_filename (page_num : Nat) : String :=
  "page_" ++ format03d (page_num + 1) ++ ".pdf"

/-- The per-page writes of `split_pdf` (`split_pdf.py`, lines 34-44): for
each page index a fresh single-page PDF containing exactly that page. -/
def split_writes (output_dir : String) (pages : List Page) :
    List (String × FileData) :=
  (List.range pages.length).map (fun i =>
    (output_dir ++ "/" ++ page_filename i, FileData.pdf [pages.getD i default]))

/-- Result of a splitter run: completion, or the uncaught read error
(`PdfReader` raising on a missing or malformed source). -/
inductive SplitResult
  | ok
  | readError
deriving DecidableEq

/-- Bool test that the data at a path reads as a PDF. -/
def pdf_readable : Option FileData → Bool
  | some (FileData.pdf _) => true
  | _ => false

/-- `split_pdf(input_path, output_dir="pdf_pages")` (`split_pdf.py`,
lines 19-48): create the output directory if absent, read the source PDF,
then write one single-page file per page.  A failing read propagates
uncaught (there is no try/except in the source), after the directory was
already created. -/
def split_pdf (fs : FS) (input_path : String)
    (output_dir : String := "pdf_pages") : FS × SplitResult :=
  match (fs.mkdirIfAbsent output_dir).file input_path with
  | some (FileData.pdf pages) =>
      (applyWrites (split_writes output_dir pages) (fs.mkdirIfAbsent output_dir),
       SplitResult.ok)
  | _ => (fs.mkdirIfAbsent output_dir, SplitResult.readError)

/-- `max(1, int(char_count / 3.8))` (`split_pdf.py`, line 92).  For a
nonnegative integer count the Python float division followed by `int`
truncation computes the exact floor of `count / 3.8`, which over the
rationals is `5 * count / 19` in integer division (the IEEE double nearest
to 3.8 has relative error below 2 ^ (-54), too small to move the floor for
any representable count). -/
def token_estimate (char_count : Nat) : Nat :=
  max 1 (5 * char_count / 19)

/-- Modelled from the spec wording: `token_estimate = max(1, floor(character_count / 3.8))`,
with the division taken over the rationals.  Stated separately so the code
definition `token_estimate` can be proved to refine it. -/
def token_estimate_spec (char_count : Nat) : Nat :=
  max 1 ⌊((char_count : ℚ)) / 3.8⌋₊

/-- The Python call replacing the extension, `pdf_file.replace` applied to
`.pdf` and `.txt` (`split_pdf.py`, line 84). -/
def txt_filename (pdf_file : String) : String :=
  py_replace pdf_file ".pdf" ".txt"

/-- The characters of a filename before a four-character extension. -/
def stem_chars (f : String) : List Char :=
  f.data.take (f.data.length - 4)

/-- Bool test that the page file for `f` inside `output_dir` exists, is a
PDF and has a first page (the extractor indexes `pages[0]`). -/
def page_readable (fs : FS) (output_dir : String) (f : String) : Bool :=
  match fs.file (output_dir ++ "/" ++ f) with
  | some (FileData.pdf (_ :: _)) => true
  | _ => false

/-- The text extracted from the first page of the page file for `f`
(meaningful when `page_readable` holds). -/
def page_text (fs : FS) (output_dir : String) (f : String) : String :=
  match fs.file (output_dir ++ "/" ++ f) with
  | some (FileData.pdf (page :: _)) => page.text
  | _ => ""

/-- Accumulated state of the extraction loop: the text files written so far
and the running character / token totals. -/
structure ExtractAcc where
  writes : List (String × FileData)
  total_chars : Nat
  total_tokens : Nat
deriving DecidableEq

/-- Final outcome of `extract_text_from_pages`: the printed average, or the
uncaught error that aborted it (a failing page read, or the
`ZeroDivisionError` raised by `total_tokens // len(pdf_files)` when the
directory holds no page files). -/
inductive ExtractOutcome
  | ok (avg : Nat)
  | readFailure (f : String)
  | zeroDivisionFailure
deriving DecidableEq

/-- The sorted list of page-file names the extractor iterates over
(`split_pdf.py`, lines 66-67): the directory entries ending in `.pdf`,
sorted ascending (Python `list.sort`, lexicographic by code point). -/
def sorted_pdf_files (listing : List String) : List String :=
  List.insertionSort (fun a b : String => a ≤ b)
    (listing.filter (fun f => str_endswith f ".pdf"))

/-- The per-file loop of `extract_text_from_pages` (`split_pdf.py`,
lines 74-97): read the single page of each page file, record the text-file
write and update the totals; a file that is missing, not a PDF, or has no
page aborts the loop with the failing filename (uncaught in the source).
Reads go against the pre-loop file system: the loop only writes `.txt`
paths, which never coincide with the `.pdf` paths it reads. -/
def extract_loop (fs : FS) (output_dir text_dir : String) :
    List String → ExtractAcc → ExtractAcc × Option String
  | [], acc => (acc, none)
  | pdf_file :: rest, acc =>
    match fs.file (output_dir ++ "/" ++ pdf_file) with
    | some (FileData.pdf (page :: _)) =>
        extract_loop fs output_dir text_dir rest
          { writes := acc.writes ++
              [(text_dir ++ "/" ++ txt_filename pdf_file, FileData.txt page.text)],
            total_chars := acc.total_chars + page.text.length,
            total_tokens := acc.total_tokens + token_estimate page.text.length }
    | _ => (acc, some pdf_file)

/-- `extract_text_from_pages(output_dir="pdf_pages", text_dir="pdf_text")`
(`split_pdf.py`, lines 60-102).  `listing` models `os.listdir(output_dir)`
(a duplicate-free enumeration of the directory).  After the loop the
source computes `total_tokens // len(pdf_files)`, which raises
`ZeroDivisionError` when no `.pdf` entries exist; the source has no guard,
so the zero case is modelled as that uncaught failure. -/
def extract_text_from_pages (fs : FS) (listing : List String)
    (output_dir : String := "pdf_pages") (text_dir : String := "pdf_text") :
    FS × ExtractAcc × ExtractOutcome :=
  match extract_loop fs output_dir text_dir (sorted_pdf_files listing) ⟨[], 0, 0⟩ with
  | (acc, some f) =>
      (applyWrites acc.writes (fs.mkdirIfAbsent text_dir), acc,
       ExtractOutcome.readFailure f)
  | (acc, none) =>
      (applyWrites acc.writes (fs.mkdirIfAbsent text_dir), acc,
        if (sorted_pdf_files listing).length = 0 then ExtractOutcome.zeroDivisionFailure
        else ExtractOutcome.ok (acc.total_tokens / (sorted_pdf_files listing).length))

/-- A file system holding only the freshly generated two-page source
document, used to instantiate the splitter theorems. -/
def fs_gen : FS :=
  ⟨[], fun p =>
    if p = "large_ai_research_document.pdf" then
      some (FileData.pdf [⟨"alpha"⟩, ⟨"beta"⟩])
    else none⟩

/-- An empty file system (no directories, no files). -/
def fs_empty : FS := ⟨[], fun _ => none⟩

/-- A file system in which the source path handed to the splitter is itself
one of the splitter output paths: a two-page PDF stored at
`pdf_pages/page_001.pdf`. -/
def fs_alias : FS :=
  ⟨["pdf_pages"], fun p =>
    if p = "pdf_pages/page_001.pdf" then
      some (FileData.pdf [⟨"one"⟩, ⟨"two"⟩])
    else none⟩

/-- A pages directory holding a page file whose name contains `.pdf` twice,
used against the text extractor naming claim. -/
def fs_badname : FS :=
  ⟨["pdf_pages"], fun p =>
    if p = "pdf_pages/a.pdf.pdf" then some (FileData.pdf [⟨"hello"⟩])
    else none⟩

/-- A pages directory holding one well-named single-page file, used to
instantiate the extractor theorems. -/
def fs_pages : FS :=
  ⟨["pdf_pages"], fun p =>
    if p = "pdf_pages/page_001.pdf" then some (FileData.pdf [⟨"alpha text"⟩])
    else none⟩

/-! ### Lengths of the expanded content -/

theorem create_detailed_paragraphs_length (S : List String) (R : Nat) :
    (create_detailed_paragraphs S R).length = S.length * R := by
  induction S with
  | nil => simp [create_detailed_paragraphs]
  | cons s S ih =>
    simp only [create_detailed_paragraphs, List.flatMap_cons, List.length_append,
      List.length_map, List.length_range] at ih ⊢
    rw [ih, List.length_cons, Nat.succ_mul]
    omega

theorem range_flatMap_const_length {α : Type} (C : Nat) (L : List α) :
    ((List.range C).flatMap (fun _ => L)).length = C * L.length := by
  induction C with
  | zero => simp
  | succ n ih =>
    rw [List.range_succ]
    simp only [List.flatMap_append, List.length_append, ih, List.flatMap_cons,
      List.flatMap_nil, List.append_nil, Nat.succ_mul]

theorem sections_flatMap_length (sections : List (String × List String)) (R : Nat) :
    (sections.flatMap (fun sec => create_detailed_paragraphs sec.2 R)).length
      = ((sections.map (fun sec => sec.2.length)).sum) * R := by
  induction sections with
  | nil => simp
  | cons s ss ih =>
    simp only [List.flatMap_cons, List.length_append, ih, List.map_cons, List.sum_cons,
      create_detailed_paragraphs_length, Nat.add_mul]

theorem generate_pdf_paragraphs_length (sections : List (String × List String))
    (C R : Nat) :
    (generate_pdf_paragraphs sections C R).length
      = C * ((sections.map (fun sec => sec.2.length)).sum) * R := by
  unfold generate_pdf_paragraphs
  rw [range_flatMap_const_length, sections_flatMap_length, Nat.mul_assoc]

/-- Claim C1: for every list of base sentences `S` and repetition count `R`,
`create_detailed_paragraphs` returns exactly `S.length * R` expanded
paragraphs, so a document built with `C` cycles over a section table with a
total of `Sigma` sentences contains `C * Sigma * R` expanded paragraphs,
and zero of them when `C = 0` or `R = 0`. -/
theorem claim_C1 (S : List String) (sections : List (String × List String))
    (C R : Nat) :
    (create_detailed_paragraphs S R).length = S.length * R ∧
    (generate_pdf_paragraphs sections C R).length
        = C * ((sections.map (fun sec => sec.2.length)).sum) * R ∧
    (generate_pdf_paragraphs sections 0 R).length = 0 ∧
    (generate_pdf_paragraphs sections C 0).length = 0 := by
  refine ⟨create_detailed_paragraphs_length S R, generate_pdf_paragraphs_length sections C R, ?_, ?_⟩
  · rw [generate_pdf_paragraphs_length]
    omega
  · rw [generate_pdf_paragraphs_length]
    omega

/-- Claim C2: the token estimate of a page of `n` characters is
`max(1, floor(n / 3.8))` with the division exact over the rationals; it is
at least 1 for every text, and exactly 1 for empty text. -/
theorem claim_C2 (n : Nat) :
    token_estimate n = token_estimate_spec n ∧
    1 ≤ token_estimate n ∧
    token_estimate 0 = 1 := by
  refine ⟨?_, le_max_left 1 _, rfl⟩
  unfold token_estimate token_estimate_spec
  congr 1
  have h : ((n : ℚ)) / 3.8 = ((5 * n : ℕ) : ℚ) / ((19 : ℕ) : ℚ) := by
    push_cast
    rw [show (3.8 : ℚ) = 19 / 5 by norm_num]
    field_simp
    ring
  rw [h, Nat.floor_div_nat, Nat.floor_natCast]

/-- Claim C6: the `N` expanded paragraphs produced from one base sentence
are pairwise identical (a list of `N` copies, independent of the repetition
index), and each consists of the base sentence followed by the fixed suffix
clauses. -/
theorem claim_C6 (s : String) (N : Nat) :
    create_detailed_paragraphs [s] N = List.replicate N (create_detailed s) ∧
    create_detailed s = s ++ " " ++ detail_suffix s := by
  constructor
  · simp [create_detailed_paragraphs, List.map_const', List.length_range]
  · rfl

/-- Claim C7 counterexample: invoked with no explicit repetition count,
`create_detailed_paragraphs` produces 300 copies per base sentence, not
200 — the default in the source is `repetitions=300`; the builder passes
`repetitions=200` explicitly. -/
theorem claim_C7_counterexample :
    (create_detailed_paragraphs ["neural networks"]).length = 300 ∧
    (create_detailed_paragraphs ["neural networks"]).length ≠ 200 := by
  constructor <;> simp [create_detailed_paragraphs_length]

/-- Claim C7 amended: the document builder performs 20 repeat cycles and
invokes the paragraph expansion with an explicit per-section repetition
count of 200 (both visible in the default-argument invocation below), while
the expansion operation itself defaults to 300 repetitions when called with
no explicit count. -/
theorem claim_C7_amended (sections : List (String × List String)) (S : List String) :
    (generate_pdf_paragraphs sections).length
        = 20 * ((sections.map (fun sec => sec.2.length)).sum) * 200 ∧
    (create_detailed_paragraphs S).length = S.length * 300 :=
  ⟨generate_pdf_paragraphs_length sections 20 200,
   create_detailed_paragraphs_length S 300⟩


/-! ### File-system write lemmas -/

theorem FS_file_write (fs : FS) (p q : String) (d : FileData) :
    (fs.write p d).file q = if q = p then some d else fs.file q := rfl

theorem applyWrites_cons (w : String × FileData) (ws : List (String × FileData)) (fs : FS) :
    applyWrites (w :: ws) fs = applyWrites ws (fs.write w.1 w.2) := rfl

theorem applyWrites_dirs (ws : List (String × FileData)) (fs : FS) :
    (applyWrites ws fs).dirs = fs.dirs := by
  induction ws generalizing fs with
  | nil => rfl
  | cons w ws ih => rw [applyWrites_cons, ih]; rfl

theorem applyWrites_file (ws : List (String × FileData)) (fs : FS) (p : String) :
    (applyWrites ws fs).file p = (last_write ws p).or (fs.file p) := by
  induction ws generalizing fs with
  | nil => rfl
  | cons w ws ih =>
    rw [applyWrites_cons, ih, FS_file_write]
    show _ = ((last_write ws p).or (if w.1 = p then some w.2 else none)).or (fs.file p)
    cases hlw : last_write ws p with
    | some d => simp [Option.or]
    | none =>
      by_cases h : p = w.1
      · subst h; simp [Option.or]
      · have h2 : ¬ w.1 = p := fun e => h e.symm
        simp [Option.or, h, h2]

theorem last_write_eq_none (ws : List (String × FileData)) (p : String)
    (h : p ∉ ws.map Prod.fst) : last_write ws p = none := by
  induction ws with
  | nil => rfl
  | cons w ws ih =>
    simp only [List.map_cons, List.mem_cons] at h
    push_neg at h
    unfold last_write
    rw [ih h.2, if_neg (fun e => h.1 e.symm)]
    rfl

theorem last_write_getElem (ws : List (String × FileData)) (p : String) (d : FileData)
    (hnd : (ws.map Prod.fst).Nodup) (i : Nat) (hi : i < ws.length)
    (hw : ws.get ⟨i, hi⟩ = (p, d)) : last_write ws p = some d := by
  induction ws generalizing i with
  | nil => exact absurd hi (by simp)
  | cons w ws ih =>
    simp only [List.map_cons, List.nodup_cons] at hnd
    cases i with
    | zero =>
      have hw0 : w = (p, d) := hw
      subst hw0
      unfold last_write
      rw [last_write_eq_none ws p hnd.1, if_pos rfl]
      rfl
    | succ n =>
      have hn : n < ws.length := by
        simp only [List.length_cons] at hi
        omega
      unfold last_write
      rw [ih hnd.2 n hn hw]
      rfl

theorem mkdirIfAbsent_mem (fs : FS) (d : String) : d ∈ (fs.mkdirIfAbsent d).dirs := by
  unfold FS.mkdirIfAbsent
  by_cases h : d ∈ fs.dirs
  · simp [h]
  · simp [h]

/-! ### Splitter lemmas -/

theorem split_writes_length (output_dir : String) (pages : List Page) :
    (split_writes output_dir pages).length = pages.length := by
  simp [split_writes]

theorem split_writes_get (output_dir : String) (pages : List Page)
    (i : Nat) (hi : i < pages.length) :
    (split_writes output_dir pages).get ⟨i, by rw [split_writes_length]; exact hi⟩
      = (output_dir ++ "/" ++ page_filename i, FileData.pdf [pages.get ⟨i, hi⟩]) := by
  simp only [split_writes, List.get_eq_getElem, List.getElem_map, List.getElem_range]
  rw [List.getD_eq_getElem _ _ hi]

theorem digitChar_inj_lt10 :
    ∀ a < 10, ∀ b < 10, Nat.digitChar a = Nat.digitChar b → a = b := by decide

theorem format03d_data_inj {a b : Nat} (ha : a < 1000) (hb : b < 1000)
    (h : (format03d a).data = (format03d b).data) : a = b := by
  unfold format03d at h
  rw [if_pos ha, if_pos hb] at h
  have hd : [Nat.digitChar (a / 100), Nat.digitChar (a / 10 % 10), Nat.digitChar (a % 10)]
      = [Nat.digitChar (b / 100), Nat.digitChar (b / 10 % 10), Nat.digitChar (b % 10)] := h
  simp only [List.cons.injEq, and_true] at hd
  obtain ⟨h1, h2, h3⟩ := hd
  have e1 := digitChar_inj_lt10 _ (by omega) _ (by omega) h1
  have e2 := digitChar_inj_lt10 _ (by omega) _ (by omega) h2
  have e3 := digitChar_inj_lt10 _ (by omega) _ (by omega) h3
  omega

theorem page_path_inj {output_dir : String} {i j : Nat}
    (hi : i + 1 < 1000) (hj : j + 1 < 1000)
    (h : output_dir ++ "/" ++ page_filename i = output_dir ++ "/" ++ page_filename j) :
    i = j := by
  unfold page_filename at h
  have hd := congrArg String.data h
  simp only [String.data_append, List.append_assoc] at hd
  have hd1 := List.append_cancel_left hd
  have hd2 := List.append_cancel_left hd1
  have hd3 := List.append_cancel_left hd2
  have hd4 := List.append_cancel_right hd3
  have := format03d_data_inj hi hj hd4
  omega

theorem split_writes_keys (output_dir : String) (pages : List Page) :
    (split_writes output_dir pages).map Prod.fst
      = (List.range pages.length).map (fun i => output_dir ++ "/" ++ page_filename i) := by
  simp [split_writes, List.map_map, Function.comp]

theorem split_writes_keys_nodup (output_dir : String) (pages : List Page)
    (hN : pages.length ≤ 999) :
    ((split_writes output_dir pages).map Prod.fst).Nodup := by
  rw [split_writes_keys]
  refine (List.nodup_range _).map_on ?_
  intro i hi j hj hij
  exact page_path_inj
    (by have := List.mem_range.mp hi; omega)
    (by have := List.mem_range.mp hj; omega) hij

theorem mem_split_writes_keys {output_dir p : String} {pages : List Page} :
    p ∈ (split_writes output_dir pages).map Prod.fst ↔
      ∃ i, i < pages.length ∧ p = output_dir ++ "/" ++ page_filename i := by
  rw [split_writes_keys]
  simp only [List.mem_map, List.mem_range]
  constructor
  · rintro ⟨i, hi, he⟩
    exact ⟨i, hi, he.symm⟩
  · rintro ⟨i, hi, he⟩
    exact ⟨i, hi, he.symm⟩

theorem split_pdf_of_read (fs : FS) (input_path output_dir : String) (pages : List Page)
    (hread : fs.file input_path = some (FileData.pdf pages)) :
    split_pdf fs input_path output_dir
      = (applyWrites (split_writes output_dir pages) (fs.mkdirIfAbsent output_dir),
         SplitResult.ok) := by
  unfold split_pdf
  rw [show (fs.mkdirIfAbsent output_dir).file input_path = some (FileData.pdf pages) from hread]

theorem split_pdf_of_bad (fs : FS) (input_path output_dir : String)
    (h : pdf_readable (fs.file input_path) = false) :
    split_pdf fs input_path output_dir
      = (fs.mkdirIfAbsent output_dir, SplitResult.readError) := by
  unfold split_pdf
  cases hm : fs.file input_path with
  | none => rw [show (fs.mkdirIfAbsent output_dir).file input_path = none from hm]
  | some d =>
    cases d with
    | pdf pages => rw [hm] at h; simp [pdf_readable] at h
    | txt s =>
      rw [show (fs.mkdirIfAbsent output_dir).file input_path
            = some (FileData.txt s) from hm]

/-- Claim C3: for a readable source document of `N` pages (`N` at most 999),
the splitter returns successfully having created the output directory, and
its write list holds exactly `N` single-page files with pairwise distinct
paths, the file for 0-based index `i` being
`output_dir/page_{i+1:03d}.pdf` containing exactly page `i`; after the run
the file system holds exactly those writes, every other path unchanged (so
an `N = 0` document writes zero page files while the directory exists). -/
theorem claim_C3 (fs : FS) (input_path output_dir : String) (pages : List Page)
    (hread : fs.file input_path = some (FileData.pdf pages))
    (hN : pages.length ≤ 999) :
    (split_pdf fs input_path output_dir).2 = SplitResult.ok ∧
    (split_writes output_dir pages).length = pages.length ∧
    ((split_writes output_dir pages).map Prod.fst).Nodup ∧
    (∀ i, (hi : i < pages.length) →
      (split_writes output_dir pages).get ⟨i, by rw [split_writes_length]; exact hi⟩
          = (output_dir ++ "/" ++ page_filename i, FileData.pdf [pages.get ⟨i, hi⟩]) ∧
      ((split_pdf fs input_path output_dir).1).file (output_dir ++ "/" ++ page_filename i)
          = some (FileData.pdf [pages.get ⟨i, hi⟩])) ∧
    output_dir ∈ ((split_pdf fs input_path output_dir).1).dirs ∧
    (∀ p, p ∉ (split_writes output_dir pages).map Prod.fst →
      ((split_pdf fs input_path output_dir).1).file p = fs.file p) := by
  have hs := split_pdf_of_read fs input_path output_dir pages hread
  refine ⟨by rw [hs], split_writes_length output_dir pages,
    split_writes_keys_nodup output_dir pages hN, ?_, ?_, ?_⟩
  · intro i hi
    refine ⟨split_writes_get output_dir pages i hi, ?_⟩
    rw [hs]
    show (applyWrites (split_writes output_dir pages) (fs.mkdirIfAbsent output_dir)).file _ = _
    rw [applyWrites_file,
      last_write_getElem (split_writes output_dir pages)
        (output_dir ++ "/" ++ page_filename i) (FileData.pdf [pages.get ⟨i, hi⟩])
        (split_writes_keys_nodup output_dir pages hN)
        i (by rw [split_writes_length]; exact hi)
        (split_writes_get output_dir pages i hi)]
    rfl
  · rw [hs]
    show output_dir ∈ (applyWrites (split_writes output_dir pages)
      (fs.mkdirIfAbsent output_dir)).dirs
    rw [applyWrites_dirs]
    exact mkdirIfAbsent_mem fs output_dir
  · intro p hp
    rw [hs]
    show (applyWrites (split_writes output_dir pages) (fs.mkdirIfAbsent output_dir)).file p = _
    rw [applyWrites_file, last_write_eq_none _ _ hp]
    rfl

/-- Claim C3 witness: splitting a concrete two-page document writes the
single-page file `pdf_pages/page_002.pdf` containing exactly the second
page, and reports success. -/
theorem claim_C3_witness :
    (split_pdf fs_gen "large_ai_research_document.pdf" "pdf_pages").2 = SplitResult.ok ∧
    ((split_pdf fs_gen "large_ai_research_document.pdf" "pdf_pages").1).file
        ("pdf_pages" ++ "/" ++ page_filename 1)
      = some (FileData.pdf [⟨"beta"⟩]) := by
  have h := claim_C3 fs_gen "large_ai_research_document.pdf" "pdf_pages"
    [⟨"alpha"⟩, ⟨"beta"⟩] (by decide) (by decide)
  exact ⟨h.1, (h.2.2.2.1 1 (by decide)).2⟩

/-- Claim C5: re-running the splitter on the same source, when the source
path does not collide with any output page path, reproduces the same result
and leaves every file of the first run byte-identical. -/
theorem claim_C5 (fs : FS) (input_path output_dir : String) (pages : List Page)
    (hread : fs.file input_path = some (FileData.pdf pages))
    (hnc : ∀ i, i < pages.length → input_path ≠ output_dir ++ "/" ++ page_filename i) :
    (split_pdf (split_pdf fs input_path output_dir).1 input_path output_dir).2
        = (split_pdf fs input_path output_dir).2 ∧
    ∀ p, ((split_pdf (split_pdf fs input_path output_dir).1 input_path output_dir).1).file p
        = ((split_pdf fs input_path output_dir).1).file p := by
  have h1 := split_pdf_of_read fs input_path output_dir pages hread
  have hin : input_path ∉ (split_writes output_dir pages).map Prod.fst := by
    rw [mem_split_writes_keys]
    rintro ⟨i, hi, he⟩
    exact hnc i hi he
  have hread2 : ((split_pdf fs input_path output_dir).1).file input_path
      = some (FileData.pdf pages) := by
    rw [h1]
    show (applyWrites (split_writes output_dir pages)
      (fs.mkdirIfAbsent output_dir)).file input_path = _
    rw [applyWrites_file, last_write_eq_none _ _ hin]
    exact hread
  have h2 := split_pdf_of_read (split_pdf fs input_path output_dir).1
    input_path output_dir pages hread2
  constructor
  · rw [h2, h1]
  · intro p
    rw [h2, h1]
    show (applyWrites (split_writes output_dir pages)
        ((applyWrites (split_writes output_dir pages)
          (fs.mkdirIfAbsent output_dir)).mkdirIfAbsent output_dir)).file p
      = (applyWrites (split_writes output_dir pages) (fs.mkdirIfAbsent output_dir)).file p
    rw [applyWrites_file, applyWrites_file]
    have hmk : (((applyWrites (split_writes output_dir pages)
        (fs.mkdirIfAbsent output_dir)).mkdirIfAbsent output_dir)).file p
        = (applyWrites (split_writes output_dir pages) (fs.mkdirIfAbsent output_dir)).file p :=
      rfl
    rw [hmk, applyWrites_file]
    cases hlw : last_write (split_writes output_dir pages) p <;> simp [Option.or]

/-- Claim C5 witness: a concrete second run over the two-page document
leaves the first page file exactly as the first run wrote it. -/
theorem claim_C5_witness :
    ((split_pdf (split_pdf fs_gen "large_ai_research_document.pdf" "pdf_pages").1
        "large_ai_research_document.pdf" "pdf_pages").1).file
        ("pdf_pages" ++ "/" ++ page_filename 0)
      = ((split_pdf fs_gen "large_ai_research_document.pdf" "pdf_pages").1).file
        ("pdf_pages" ++ "/" ++ page_filename 0) :=
  (claim_C5 fs_gen "large_ai_research_document.pdf" "pdf_pages"
    [⟨"alpha"⟩, ⟨"beta"⟩] (by decide) (by decide)).2
    ("pdf_pages" ++ "/" ++ page_filename 0)

/-- Claim C8: if the source path does not read as a PDF (missing file or
wrong format), the splitter propagates the read error and writes no file at
all (every path is unchanged); only the output directory was created before
the failing read. -/
theorem claim_C8 (fs : FS) (input_path output_dir : String)
    (h : pdf_readable (fs.file input_path) = false) :
    (split_pdf fs input_path output_dir).2 = SplitResult.readError ∧
    (∀ p, ((split_pdf fs input_path output_dir).1).file p = fs.file p) ∧
    output_dir ∈ ((split_pdf fs input_path output_dir).1).dirs := by
  have hb := split_pdf_of_bad fs input_path output_dir h
  refine ⟨by rw [hb], fun p => by rw [hb]; rfl, ?_⟩
  rw [hb]
  exact mkdirIfAbsent_mem fs output_dir

/-- Claim C8 witness: splitting a missing source file on an empty file
system reports the read error and leaves the would-be first page path
unwritten. -/
theorem claim_C8_witness :
    (split_pdf fs_empty "large_ai_research_document.pdf" "pdf_pages").2
        = SplitResult.readError ∧
    ((split_pdf fs_empty "large_ai_research_document.pdf" "pdf_pages").1).file
        ("pdf_pages" ++ "/" ++ page_filename 0)
      = fs_empty.file ("pdf_pages" ++ "/" ++ page_filename 0) := by
  have h := claim_C8 fs_empty "large_ai_research_document.pdf" "pdf_pages" (by decide)
  exact ⟨h.1, h.2.1 ("pdf_pages" ++ "/" ++ page_filename 0)⟩

/-- Claim C10 counterexample: when the source path handed to the splitter
is itself of the output page-path form (a two-page PDF stored at
`pdf_pages/page_001.pdf`, split into the same directory), the run
overwrites the source: afterwards the source path holds the one-page split
output, not its original two-page bytes. -/
theorem claim_C10_counterexample :
    fs_alias.file "pdf_pages/page_001.pdf" = some (FileData.pdf [⟨"one"⟩, ⟨"two"⟩]) ∧
    ((split_pdf fs_alias "pdf_pages/page_001.pdf" "pdf_pages").1).file
        "pdf_pages/page_001.pdf" = some (FileData.pdf [⟨"one"⟩]) ∧
    some (FileData.pdf [(⟨"one"⟩ : Page)]) ≠ some (FileData.pdf [⟨"one"⟩, ⟨"two"⟩]) := by
  refine ⟨rfl, by decide, by decide⟩

/-- Claim C10 amended: provided the source path is not itself one of the
output page paths `output_dir/page_{i+1:03d}.pdf`, the splitter leaves the
source bytes unchanged and writes only page files: every path that is not
an output page path is unchanged. -/
theorem claim_C10_amended (fs : FS) (input_path output_dir : String) (pages : List Page)
    (hread : fs.file input_path = some (FileData.pdf pages))
    (hnc : ∀ i, i < pages.length → input_path ≠ output_dir ++ "/" ++ page_filename i) :
    ((split_pdf fs input_path output_dir).1).file input_path = fs.file input_path ∧
    ∀ p, (∀ i, i < pages.length → p ≠ output_dir ++ "/" ++ page_filename i) →
      ((split_pdf fs input_path output_dir).1).file p = fs.file p := by
  have hs := split_pdf_of_read fs input_path output_dir pages hread
  have frame : ∀ p, (∀ i, i < pages.length → p ≠ output_dir ++ "/" ++ page_filename i) →
      ((split_pdf fs input_path output_dir).1).file p = fs.file p := by
    intro p hp
    have hin : p ∉ (split_writes output_dir pages).map Prod.fst := by
      rw [mem_split_writes_keys]
      rintro ⟨i, hi, he⟩
      exact hp i hi he
    rw [hs]
    show (applyWrites (split_writes output_dir pages)
      (fs.mkdirIfAbsent output_dir)).file p = _
    rw [applyWrites_file, last_write_eq_none _ _ hin]
    rfl
  exact ⟨frame input_path hnc, frame⟩

/-- Claim C10 amended witness: a concrete non-aliased run leaves the source
document path byte-identical. -/
theorem claim_C10_witness :
    ((split_pdf fs_gen "large_ai_research_document.pdf" "pdf_pages").1).file
        "large_ai_research_document.pdf"
      = fs_gen.file "large_ai_research_document.pdf" :=
  (claim_C10_amended fs_gen "large_ai_research_document.pdf" "pdf_pages"
    [⟨"alpha"⟩, ⟨"beta"⟩] (by decide) (by decide)).1

/-! ### Extractor lemmas -/

theorem string_data_inj {a b : String} (h : a.data = b.data) : a = b :=
  congrArg String.mk h

theorem str_endswith_pdf_shape {f : String} (h : str_endswith f ".pdf" = true) :
    f.data = stem_chars f ++ ['.', 'p', 'd', 'f'] := by
  unfold str_endswith at h
  rw [beq_iff_eq] at h
  have h4 : ".pdf".data.length = 4 := rfl
  rw [h4] at h
  unfold stem_chars
  conv_lhs => rw [← List.take_append_drop (f.data.length - 4) f.data]
  rw [h]

theorem listStartsWith_self (p : List Char) : listStartsWith p p = true := by
  induction p with
  | nil => rfl
  | cons c cs ih => simp [listStartsWith, ih]

theorem replace_fuel_dotfree :
    ∀ (stem : List Char) (fuel : Nat), stem.length + 4 ≤ fuel → ('.' : Char) ∉ stem →
      replace_fuel ['.', 'p', 'd', 'f'] ['.', 't', 'x', 't'] fuel
          (stem ++ ['.', 'p', 'd', 'f'])
        = stem ++ ['.', 't', 'x', 't'] := by
  intro stem
  induction stem with
  | nil =>
    intro fuel hf _
    obtain ⟨k, rfl⟩ : ∃ k, fuel = k + 1 := ⟨fuel - 1, by omega⟩
    simp only [List.nil_append, replace_fuel, listStartsWith_self, if_true]
    simp [replace_fuel]
  | cons c cs ih =>
    intro fuel hf hd
    obtain ⟨k, rfl⟩ : ∃ k, fuel = k + 1 := ⟨fuel - 1, by omega⟩
    have hc : c ≠ '.' := by
      intro e
      exact hd (by rw [e]; exact List.mem_cons_self _ _)
    have hbeq : ('.' == c) = false := by
      rw [beq_eq_false_iff_ne]
      exact fun e => hc e.symm
    have hsw : listStartsWith ['.', 'p', 'd', 'f']
        (c :: (cs ++ ['.', 'p', 'd', 'f'])) = false := by
      simp [listStartsWith, hbeq]
    rw [List.cons_append]
    simp only [replace_fuel, hsw, Bool.false_eq_true, if_false]
    have hlen : cs.length + 4 ≤ k := by
      simp only [List.length_cons] at hf
      omega
    rw [ih k hlen (fun hm => hd (List.mem_cons_of_mem _ hm))]
    rfl

theorem txt_filename_shape {f : String}
    (hshape : f.data = stem_chars f ++ ['.', 'p', 'd', 'f'])
    (hd : ('.' : Char) ∉ stem_chars f) :
    (txt_filename f).data = stem_chars f ++ ['.', 't', 'x', 't'] := by
  unfold txt_filename py_replace
  show replace_fuel ".pdf".data ".txt".data f.data.length f.data = _
  have hp : ".pdf".data = ['.', 'p', 'd', 'f'] := rfl
  have ht : ".txt".data = ['.', 't', 'x', 't'] := rfl
  rw [hp, ht, hshape]
  apply replace_fuel_dotfree
  · rw [List.length_append]
    simp
  · exact hd

theorem extract_loop_spec (fs : FS) (output_dir text_dir : String) :
    ∀ (files : List String) (acc : ExtractAcc),
      (∀ f ∈ files, page_readable fs output_dir f = true) →
      extract_loop fs output_dir text_dir files acc
        = (⟨acc.writes ++ files.map (fun f =>
              (text_dir ++ "/" ++ txt_filename f, FileData.txt (page_text fs output_dir f))),
            acc.total_chars + (files.map (fun f => (page_text fs output_dir f).length)).sum,
            acc.total_tokens + (files.map (fun f =>
              token_estimate (page_text fs output_dir f).length)).sum⟩,
           none) := by
  intro files
  induction files with
  | nil =>
    intro acc h
    simp [extract_loop]
  | cons f rest ih =>
    intro acc h
    have hf := h f (List.mem_cons_self f rest)
    unfold page_readable at hf
    cases hm : fs.file (output_dir ++ "/" ++ f) with
    | none => rw [hm] at hf; simp at hf
    | some d =>
      cases d with
      | txt s => rw [hm] at hf; simp at hf
      | pdf pages =>
        cases pages with
        | nil => rw [hm] at hf; simp at hf
        | cons page ptl =>
          have hpt : page_text fs output_dir f = page.text := by
            unfold page_text
            rw [hm]
          simp only [extract_loop, hm]
          rw [ih _ (fun g hg => h g (List.mem_cons_of_mem f hg))]
          simp [hpt, List.append_assoc, Nat.add_assoc]

/-- Claim C9: when the pages directory holds no file ending in `.pdf`, the
extractor writes no text file and aborts with the uncaught
division-by-zero failure from `total_tokens // len(pdf_files)` instead of
completing and printing totals. -/
theorem claim_C9 (fs : FS) (listing : List String)
    (h : listing.filter (fun f => str_endswith f ".pdf") = []) :
    (extract_text_from_pages fs listing).2.1.writes = [] ∧
    (extract_text_from_pages fs listing).2.2 = ExtractOutcome.zeroDivisionFailure := by
  have hs : sorted_pdf_files listing = [] := by
    unfold sorted_pdf_files
    rw [h]
    rfl
  unfold extract_text_from_pages
  rw [hs]
  simp [extract_loop]

/-- Claim C9 witness: a directory listing with no page file makes the
extractor write nothing and fail with the division-by-zero outcome. -/
theorem claim_C9_witness :
    (extract_text_from_pages fs_empty ["readme.txt"]).2.1.writes = [] ∧
    (extract_text_from_pages fs_empty ["readme.txt"]).2.2
      = ExtractOutcome.zeroDivisionFailure :=
  ⟨(claim_C9 fs_empty ["readme.txt"] (by decide)).1,
   (claim_C9 fs_empty ["readme.txt"] (by decide)).2⟩

/-- Claim C4 counterexample: the extractor converts filenames with the
Python replace of `.pdf` by `.txt`, which substitutes every occurrence.  For the
page file `a.pdf.pdf` it writes `pdf_text/a.txt.txt`, whose base name does
not match the page file base name `a.pdf` with a `.txt` extension
(`a.pdf.txt`), refuting the claim for arbitrary page-file sets. -/
theorem claim_C4_counterexample :
    (extract_text_from_pages fs_badname ["a.pdf.pdf"]).2.1.writes
      = [("pdf_text/a.txt.txt", FileData.txt "hello")] ∧
    ("pdf_text/a.txt.txt" : String) ≠ "pdf_text/a.pdf.txt" := by
  exact ⟨by decide, by decide⟩

/-- Claim C4 amended: for page files whose names carry `.pdf` only as the
trailing extension (a dot-free stem, as all splitter-produced
`page_NNN.pdf` names are), the extractor processes exactly the `.pdf`
directory entries in ascending lexicographic filename order and writes one
text file per page file — sibling path, matching base name with a `.txt`
extension, content the extracted page text verbatim — with pairwise
distinct output paths, skipping no file and aborting on none. -/
theorem claim_C4_amended (fs : FS) (listing : List String) (output_dir text_dir : String)
    (hnodup : listing.Nodup)
    (hdot : ∀ f ∈ listing, str_endswith f ".pdf" = true → ('.' : Char) ∉ stem_chars f)
    (hread : ∀ f ∈ listing, str_endswith f ".pdf" = true →
      page_readable fs output_dir f = true) :
    (extract_text_from_pages fs listing output_dir text_dir).2.1.writes
        = (sorted_pdf_files listing).map (fun f =>
            (text_dir ++ "/" ++ txt_filename f, FileData.txt (page_text fs output_dir f))) ∧
    (extract_text_from_pages fs listing output_dir text_dir).2.1.writes.length
        = (listing.filter (fun f => str_endswith f ".pdf")).length ∧
    List.Sorted (fun a b : String => a ≤ b) (sorted_pdf_files listing) ∧
    (sorted_pdf_files listing).Perm (listing.filter (fun f => str_endswith f ".pdf")) ∧
    (∀ f ∈ sorted_pdf_files listing,
      (txt_filename f).data = stem_chars f ++ ['.', 't', 'x', 't']) ∧
    ((extract_text_from_pages fs listing output_dir text_dir).2.1.writes.map Prod.fst).Nodup ∧
    (∀ g, (extract_text_from_pages fs listing output_dir text_dir).2.2
        ≠ ExtractOutcome.readFailure g) := by
  have hperm := List.perm_insertionSort (fun a b : String => a ≤ b)
    (listing.filter (fun f => str_endswith f ".pdf"))
  have hmem : ∀ f ∈ sorted_pdf_files listing,
      f ∈ listing ∧ str_endswith f ".pdf" = true := by
    intro f hf
    exact List.mem_filter.mp (hperm.mem_iff.mp hf)
  have hreadS : ∀ f ∈ sorted_pdf_files listing, page_readable fs output_dir f = true :=
    fun f hf => hread f (hmem f hf).1 (hmem f hf).2
  have hloop := extract_loop_spec fs output_dir text_dir (sorted_pdf_files listing)
    ⟨[], 0, 0⟩ hreadS
  have hwr : (extract_text_from_pages fs listing output_dir text_dir).2.1.writes
      = (sorted_pdf_files listing).map (fun f =>
          (text_dir ++ "/" ++ txt_filename f, FileData.txt (page_text fs output_dir f))) := by
    unfold extract_text_from_pages
    rw [hloop]
    simp
  have hshape : ∀ f ∈ sorted_pdf_files listing,
      (txt_filename f).data = stem_chars f ++ ['.', 't', 'x', 't'] := by
    intro f hf
    exact txt_filename_shape (str_endswith_pdf_shape (hmem f hf).2)
      (hdot f (hmem f hf).1 (hmem f hf).2)
  refine ⟨hwr, ?_, ?_, hperm, hshape, ?_, ?_⟩
  · rw [hwr, List.length_map]
    exact hperm.length_eq
  · exact List.sorted_insertionSort _ _
  · rw [hwr, List.map_map]
    have hndS : (sorted_pdf_files listing).Nodup :=
      hperm.nodup_iff.mpr (hnodup.filter _)
    refine hndS.map_on ?_
    intro f1 h1 f2 h2 he
    have he2 : text_dir ++ "/" ++ txt_filename f1
        = text_dir ++ "/" ++ txt_filename f2 := he
    have hd := congrArg String.data he2
    simp only [String.data_append, List.append_assoc] at hd
    have hd1 := List.append_cancel_left hd
    have hd2 := List.append_cancel_left hd1
    rw [hshape f1 h1, hshape f2 h2] at hd2
    have hstem := List.append_cancel_right hd2
    apply string_data_inj
    rw [str_endswith_pdf_shape (hmem f1 h1).2, str_endswith_pdf_shape (hmem f2 h2).2,
      hstem]
  · intro g
    unfold extract_text_from_pages
    rw [hloop]
    by_cases hz : (sorted_pdf_files listing).length = 0 <;> simp [hz]

/-- Claim C4 amended witness: extracting a directory holding the single
well-named page file `page_001.pdf` produces exactly the corresponding
text-file write. -/
theorem claim_C4_witness :
    (extract_text_from_pages fs_pages ["page_001.pdf"] "pdf_pages" "pdf_text").2.1.writes
      = (sorted_pdf_files ["page_001.pdf"]).map (fun f =>
          ("pdf_text" ++ "/" ++ txt_filename f,
            FileData.txt (page_text fs_pages "pdf_pages" f))) :=
  (claim_C4_amended fs_pages ["page_001.pdf"] "pdf_pages" "pdf_text"
    (by decide) (by decide) (by decide)).1
